import Mathlib

/-!
Verification of the clinic-phone-assistant core: request validation,
provider response parsing, schema adaptation, authentication and
sliding-window rate limiting.

The Python sources are shallowly embedded:
* JSON values (Python dicts produced by `pydantic`/`json`) become the
  inductive type `Json`; Python dict update keeps the original insertion
  position of an existing key, which `setKey` mirrors.
* text is embedded as `List Char`; character classes (`str.isalpha`,
  `str.isspace`, the regex class `\s`) are modelled on their ASCII
  fragment via `Char.isAlpha` / `Char.isWhitespace`.
* `time.time()` timestamps become exact rationals `ℚ`.
* fallible code returns `Option` / explicit error sums.
* the `re` module is opaque at one point only: the nine code-detection
  regexes of `models.py` enter the validator as an abstract list of
  matchers `List (List Char → Bool)`; everything else (including the
  fenced-block regex of `base.py`, modelled concretely) is executable.
-/

set_option maxRecDepth 1000000

namespace ClinicAssistant

/-- JSON values: the shape of Python dicts/lists handled by the
repository (schemas, parsed model responses, serialized results).
Objects are insertion-ordered association lists, as Python dicts are. -/
inductive Json where
  | null : Json
  | bool : Bool → Json
  | num : ℚ → Json
  | str : String → Json
  | arr : List Json → Json
  | obj : List (String × Json) → Json

/-- Lookup of a key in a JSON object association list (first match;
keys are unique in every object this development builds). -/
def lookupKey (kvs : List (String × Json)) (k : String) : Option Json :=
  match kvs with
  | [] => none
  | (k', v) :: rest => if k' = k then some v else lookupKey rest k

/-- Python dict assignment `d[k] = v`: replace the value of `k` at its
original position if present, otherwise append the pair at the end. -/
def setKey (kvs : List (String × Json)) (k : String) (v : Json) :
    List (String × Json) :=
  match kvs with
  | [] => [(k, v)]
  | (k', v') :: rest =>
      if k' = k then (k, v) :: rest else (k', v') :: setKey rest k v

/-- Python dict `d.pop(k, default)` effect on the dict: remove `k`. -/
def removeKey (kvs : List (String × Json)) (k : String) :
    List (String × Json) :=
  match kvs with
  | [] => []
  | (k', v') :: rest =>
      if k' = k then rest else (k', v') :: removeKey rest k

/-- Python truthiness (`if desc:`) of a JSON value. -/
def jsonTruthy : Json → Bool
  | .null => false
  | .bool b => b
  | .num q => q ≠ 0
  | .str s => s ≠ ""
  | .arr xs => !xs.isEmpty
  | .obj kvs => !kvs.isEmpty

/-- `prop["$ref"].split("/")[-1]`: the definition name at the tail of a
reference such as `#/$defs/CallIntent` — the part after the last slash
(the whole string when there is none). -/
def refTail (r : String) : String :=
  .mk ((r.data.reverse.takeWhile (fun c => c ≠ '/')).reverse)

/-- The `anyOf` loop at the end of `_resolve_and_fix`: replace each
option that is a `$ref` with a copy of its definition (no sibling keys
are kept and the result is not recursed into, as in the source). -/
def fixAnyOf (defs : List (String × Json)) (opts : List Json) :
    Option (List Json) :=
  opts.mapM fun o =>
    match o with
    | .obj okvs =>
        match lookupKey okvs "$ref" with
        | none => some o
        | some (.str r) => lookupKey defs (refTail r)
        | some _ => none
    | _ => some o

mutual

/-- `_resolve_and_fix` from `app/llm/openai_provider.py`: recursively
resolve `$ref` references and apply strict-mode fixes.  The Python
function mutates its `node` dict in place; here it returns the new node.
`none` models a raised exception (a `KeyError` on a dangling reference)
or fuel exhaustion on a cyclic schema (where the Python recursion would
not terminate). -/
def fixNode (fuel : Nat) (defs : List (String × Json)) (node : Json) :
    Option Json :=
  match fuel with
  | 0 => none
  | fuel + 1 =>
    match node with
    | .obj kvs =>
        match lookupKey kvs "properties" with
        | some (.obj props) => do
            let kvs := setKey kvs "required"
              (.arr (props.map (fun kv => .str kv.1)))
            let kvs := setKey kvs "additionalProperties" (.bool false)
            let props2 ← fixProps fuel defs props
            pure (.obj (setKey kvs "properties" (.obj props2)))
        | some _ => none
        | none => some node
    | _ => some node

/-- The `for prop_name in list(node["properties"])` loop of
`_resolve_and_fix`, transforming each property value in order. -/
def fixProps (fuel : Nat) (defs : List (String × Json))
    (props : List (String × Json)) : Option (List (String × Json)) :=
  match fuel with
  | 0 => none
  | fuel + 1 =>
    match props with
    | [] => some []
    | (k, v) :: rest => do
        let v2 ← fixProp fuel defs v
        let rest2 ← fixProps fuel defs rest
        pure ((k, v2) :: rest2)

/-- The body of the property loop in `_resolve_and_fix`: inline a
`$ref` (keeping a truthy sibling `description`), pop the
`minimum`/`maximum` constraints, recurse into the property, then inline
`$ref`s sitting inside `anyOf` branches (used for Optional fields). -/
def fixProp (fuel : Nat) (defs : List (String × Json)) (prop : Json) :
    Option Json :=
  match fuel with
  | 0 => none
  | fuel + 1 =>
    match prop with
    | .obj pkvs => do
        let pkvs ←
          match lookupKey pkvs "$ref" with
          | none => some pkvs
          | some (.str r) => do
              let resolved ← lookupKey defs (refTail r)
              match resolved with
              | .obj rkvs =>
                  -- `desc = prop.get("description"); ...; if desc:`
                  match lookupKey pkvs "description" with
                  | some d =>
                      if jsonTruthy d then some (setKey rkvs "description" d)
                      else some rkvs
                  | none => some rkvs
              | _ => none  -- a non-dict definition: unreachable here
          | some _ => none  -- a non-string `$ref`: unreachable here
        let pkvs := removeKey (removeKey pkvs "minimum") "maximum"
        let prop2 ← fixNode fuel defs (.obj pkvs)
        match prop2 with
        | .obj qkvs =>
            match lookupKey qkvs "anyOf" with
            | none => some prop2
            | some (.arr opts) => do
                let opts2 ← fixAnyOf defs opts
                some (.obj (setKey qkvs "anyOf" (.arr opts2)))
            | some _ => none  -- iterating a non-list `anyOf`: unreachable
        | _ => some prop2
    | _ => some prop  -- non-dict property values never occur in pydantic schemas

end

/-- Fuel bound for `fixNode`; any value past the depth of the concrete
schema (which is far below 100) is equivalent. -/
def schemaFuel : Nat := 100

/-- `_make_openai_strict_schema` from `app/llm/openai_provider.py`:
pop `$defs` off the schema, then resolve and fix the remaining tree. -/
def make_openai_strict_schema (pydanticSchema : Json) : Option Json :=
  match pydanticSchema with
  | .obj kvs =>
      let defs :=
        match lookupKey kvs "$defs" with
        | some (.obj d) => d
        | _ => []
      fixNode schemaFuel defs (.obj (removeKey kvs "$defs"))
  | _ => none

/-- The canonical Result Schema: the JSON schema that
`CallAnalysis.model_json_schema()` produces for the pydantic model
declared in `app/models.py` (field order, `$defs` for the two string
enums, `$ref`s with a sibling `description`, `anyOf [.., null]` with a
`null` default for the Optional fields, and the `minimum`/`maximum`
bounds on `confidence`). -/
def callAnalysisPydanticSchema : Json :=
  .obj [
    ("$defs", .obj [
      ("CallIntent", .obj [
        ("enum", .arr [.str "appointment_booking", .str "prescription_refill",
          .str "billing_question", .str "urgent_medical_issue",
          .str "general_inquiry", .str "insurance_question",
          .str "lab_results", .str "referral_request"]),
        ("title", .str "CallIntent"),
        ("type", .str "string")]),
      ("UrgencyLevel", .obj [
        ("enum", .arr [.str "low", .str "medium", .str "high"]),
        ("title", .str "UrgencyLevel"),
        ("type", .str "string")])]),
    ("properties", .obj [
      ("reasoning", .obj [
        ("anyOf", .arr [.obj [("type", .str "string")],
          .obj [("type", .str "null")]]),
        ("default", .null),
        ("description", .str "Internal chain-of-thought reasoning about the transcript. Explain your classification, note any uncertainties, then justify the confidence score. This field is excluded from the API response."),
        ("title", .str "Reasoning")]),
      ("intent", .obj [
        ("$ref", .str "#/$defs/CallIntent"),
        ("description", .str "The primary intent of the caller")]),
      ("name", .obj [
        ("anyOf", .arr [.obj [("type", .str "string")],
          .obj [("type", .str "null")]]),
        ("default", .null),
        ("description", .str "Caller\x27s full name"),
        ("title", .str "Name")]),
      ("dob", .obj [
        ("anyOf", .arr [.obj [("type", .str "string")],
          .obj [("type", .str "null")]]),
        ("default", .null),
        ("description", .str "Date of birth in ISO format (YYYY-MM-DD)"),
        ("title", .str "Dob")]),
      ("phone", .obj [
        ("anyOf", .arr [.obj [("type", .str "string")],
          .obj [("type", .str "null")]]),
        ("default", .null),
        ("description", .str "Callback phone number"),
        ("title", .str "Phone")]),
      ("summary", .obj [
        ("description", .str "Brief summary of the reason for calling"),
        ("title", .str "Summary"),
        ("type", .str "string")]),
      ("urgency", .obj [
        ("$ref", .str "#/$defs/UrgencyLevel"),
        ("description", .str "Urgency level of the call")]),
      ("confidence", .obj [
        ("description", .str "Model confidence in the analysis (0-1)"),
        ("maximum", .num 1),
        ("minimum", .num 0),
        ("title", .str "Confidence"),
        ("type", .str "number")]),
      ("speakers", .obj [
        ("description", .str "List of identified speakers in the conversation (e.g., [\x27Caller\x27, \x27Receptionist\x27, \x27IVR\x27]). Empty list for single-speaker transcripts."),
        ("items", .obj [("type", .str "string")]),
        ("title", .str "Speakers"),
        ("type", .str "array")])]),
    ("required", .arr [.str "intent", .str "summary", .str "urgency",
      .str "confidence"]),
    ("title", .str "CallAnalysis"),
    ("type", .str "object")]

/-- `_CALL_ANALYSIS_SCHEMA`: the strict-mode schema that
`app/llm/openai_provider.py` computes once when the module loads. -/
def strictCallAnalysisSchema : Option Json :=
  make_openai_strict_schema callAnalysisPydanticSchema

/-- No object anywhere in the tree (down to depth `fuel`, which is
conservatively `false` when exhausted) carries the key `k`. -/
def noKeyIn (k : String) : Nat → Json → Bool
  | 0, _ => false
  | fuel + 1, .arr xs => xs.all (noKeyIn k fuel)
  | fuel + 1, .obj kvs => kvs.all fun kv => kv.1 != k && noKeyIn k fuel kv.2
  | _ + 1, _ => true

/-- Every object node of the tree that declares `properties` lists each
of its property keys in its `required` list and sets
`additionalProperties` to `false`. -/
def strictObjs : Nat → Json → Bool
  | 0, _ => false
  | fuel + 1, .arr xs => xs.all (strictObjs fuel)
  | fuel + 1, .obj kvs =>
      (match lookupKey kvs "properties" with
       | none => true
       | some (.obj props) =>
           (match lookupKey kvs "required" with
            | some (.arr req) =>
                props.all fun kv =>
                  req.any fun x =>
                    match x with
                    | .str s => s == kv.1
                    | _ => false
            | _ => false)
           && (match lookupKey kvs "additionalProperties" with
               | some (.bool false) => true
               | _ => false)
       | some _ => false)
      && kvs.all fun kv => strictObjs fuel kv.2
  | _ + 1, _ => true

/-- The postcondition of the Schema Adapter: the transformation
succeeded, no `$ref` and no `minimum`/`maximum` key remains anywhere,
and every object node with properties is fully required and closed. -/
def strictSchemaCheck : Option Json → Bool
  | none => false
  | some s =>
      noKeyIn "$ref" schemaFuel s && noKeyIn "minimum" schemaFuel s &&
        noKeyIn "maximum" schemaFuel s && strictObjs schemaFuel s

/-! Text primitives shared by the response parser and the input
validator.  Text is `List Char`; `isWs` models both the regex class
`\s` and the whitespace notion of `str.strip`/`str.split` (their common
ASCII fragment). -/

def isWs (c : Char) : Bool := c.isWhitespace

/-- `str.lstrip()`. -/
def lstripL (s : List Char) : List Char := s.dropWhile isWs

/-- `str.rstrip()`. -/
def rstripL (s : List Char) : List Char := (s.reverse.dropWhile isWs).reverse

/-- Python `str.strip()`. -/
def pyStrip (s : List Char) : List Char := rstripL (lstripL s)

/-- Python `needle in haystack` on strings: does `needle` occur
contiguously anywhere in `haystack`? -/
def containsSeq (needle : List Char) : List Char → Bool
  | [] => needle.isEmpty
  | c :: rest => needle.isPrefixOf (c :: rest) || containsSeq needle rest

/-- The optional language tag of the fence pattern. -/
def jsonTag : List Char := ("json").data

/-! The regex `r"```(?:json)?\s*(.*?)\s*```"` searched with `re.DOTALL`
in `app/llm/base.py` is modelled operationally.  The final `\s*` before
the closing fence is greedy but deterministic (a backtick is not
whitespace), so "the remainder matches `\s*` then the closing fence"
is: drop leading whitespace, then the fence must follow. -/

/-- Does the text begin with the three-backtick fence delimiter? -/
def startsWithFence : List Char → Bool
  | c1 :: c2 :: c3 :: _ => c1 == '\x60' && c2 == '\x60' && c3 == '\x60'
  | _ => false

/-- Does a fence delimiter occur anywhere in the text?  (Payloads with
`hasFence = false` are the ones the fence regex can never fire inside
of.) -/
def hasFence : List Char → Bool
  | [] => false
  | c :: rest => startsWithFence (c :: rest) || hasFence rest

/-- The lazy group `(.*?)`: the shortest prefix of `v` whose remainder
matches `\s*` followed by the closing fence; `none` when no closing
fence is reachable. -/
def lazyClose : List Char → Option (List Char)
  | [] => none
  | c :: rest =>
      if startsWithFence ((c :: rest).dropWhile isWs) then some []
      else (lazyClose rest).map (c :: ·)

/-- The body after the opening fence and the optional tag: the greedy
middle `\s*` takes the maximal whitespace run (backtracking it shorter
can never succeed when the maximal run fails, since the skipped
characters are whitespace and change no closing-fence test), then the
lazy group runs. -/
def tryBody (u : List Char) : Option (List Char) :=
  lazyClose (u.dropWhile isWs)

/-- Attempt at an opening fence: `(?:json)?` is greedy, falling back to
the untagged reading when the tagged one fails. -/
def tryTag (t : List Char) : Option (List Char) :=
  (if jsonTag.isPrefixOf t then tryBody (t.drop 4) else none) <|> tryBody t

/-- `re.search` of the fence pattern: the leftmost opening fence from
which the whole pattern matches wins; the extracted group is returned. -/
def searchFence : List Char → Option (List Char)
  | [] => none
  | c :: rest =>
      (if startsWithFence (c :: rest) then tryTag ((c :: rest).drop 3)
       else none) <|> searchFence rest

/-! A model of `json.loads`: recursive-descent over the JSON grammar
(objects, arrays, strings with escapes, numbers, literals), rejecting
trailing data and raw control characters in strings, with duplicate
object keys resolved last-wins at the first position as Python dicts
do.  Numbers are kept as exact rationals. -/

def digitsToNat (ds : List Char) : Nat :=
  ds.foldl (fun n c => 10 * n + (c.toNat - 48)) 0

def hexVal (c : Char) : Option Nat :=
  if c.isDigit then some (c.toNat - 48)
  else if 'a' ≤ c ∧ c ≤ 'f' then some (c.toNat - 87)
  else if 'A' ≤ c ∧ c ≤ 'F' then some (c.toNat - 55)
  else none

/-- Parse a JSON number at the head of `s` (grammar
`-?(0|[1-9][0-9]*)(\.[0-9]+)?([eE][+-]?[0-9]+)?`, as in Python's
`json` number regex), returned as an exact rational. -/
def parseNumber (s : List Char) : Option (ℚ × List Char) := do
  let (neg, s1) := match s with
    | '-' :: r => (true, r)
    | _ => (false, s)
  let (intDs, s2) ←
    match s1 with
    | '0' :: r => some (['0'], r)
    | c :: r =>
        if c.isDigit then some (c :: r.takeWhile Char.isDigit,
          r.dropWhile Char.isDigit)
        else none
    | [] => none
  let (fracDs, s3) ←
    match s2 with
    | '.' :: r =>
        let ds := r.takeWhile Char.isDigit
        if ds.isEmpty then none else some (ds, r.dropWhile Char.isDigit)
    | _ => some ([], s2)
  let (expVal, s4) ←
    match s3 with
    | c :: r =>
        if c = 'e' ∨ c = 'E' then
          let (esign, r1) := match r with
            | '-' :: r2 => ((-1 : ℤ), r2)
            | '+' :: r2 => ((1 : ℤ), r2)
            | _ => ((1 : ℤ), r)
          let ds := r1.takeWhile Char.isDigit
          if ds.isEmpty then none
          else some (esign * (digitsToNat ds : ℤ), r1.dropWhile Char.isDigit)
        else some ((0 : ℤ), s3)
    | [] => some ((0 : ℤ), s3)
  let mag : ℚ :=
    ((digitsToNat intDs : ℚ) + (digitsToNat fracDs : ℚ) /
      (10 : ℚ) ^ fracDs.length) * (10 : ℚ) ^ expVal
  pure (if neg then -mag else mag, s4)

/-- Parse the body of a JSON string (the opening quote already
consumed): characters up to the closing quote, decoding escapes and
rejecting raw control characters (`json.loads` default `strict=True`). -/
def parseStringBody : Nat → List Char → Option (List Char × List Char)
  | 0, _ => none
  | _ + 1, [] => none
  | fuel + 1, c :: rest =>
      if c = '"' then some ([], rest)
      else if c = '\\' then
        match rest with
        | [] => none
        | e :: rest2 =>
            let dec : Option (Char × List Char) :=
              if e = '"' then some ('"', rest2)
              else if e = '\\' then some ('\\', rest2)
              else if e = '/' then some ('/', rest2)
              else if e = 'b' then some ('\x08', rest2)
              else if e = 'f' then some ('\x0c', rest2)
              else if e = 'n' then some ('\n', rest2)
              else if e = 'r' then some ('\r', rest2)
              else if e = 't' then some ('\t', rest2)
              else if e = 'u' then
                match rest2 with
                | h1 :: h2 :: h3 :: h4 :: rest3 => do
                    let v1 ← hexVal h1
                    let v2 ← hexVal h2
                    let v3 ← hexVal h3
                    let v4 ← hexVal h4
                    pure (Char.ofNat (((v1 * 16 + v2) * 16 + v3) * 16 + v4),
                      rest3)
                | _ => none
              else none
            match dec with
            | some (d, rest3) =>
                (parseStringBody fuel rest3).map fun p => (d :: p.1, p.2)
            | none => none
      else if c.toNat < 32 then none
      else (parseStringBody fuel rest).map fun p => (c :: p.1, p.2)

mutual

/-- Parse one JSON value at the head of the input (leading whitespace
skipped), returning it with the unconsumed remainder. -/
def parseValue : Nat → List Char → Option (Json × List Char)
  | 0, _ => none
  | fuel + 1, s =>
      match s.dropWhile isWs with
      | 'n' :: 'u' :: 'l' :: 'l' :: rest => some (.null, rest)
      | 't' :: 'r' :: 'u' :: 'e' :: rest => some (.bool true, rest)
      | 'f' :: 'a' :: 'l' :: 's' :: 'e' :: rest => some (.bool false, rest)
      | '"' :: rest =>
          (parseStringBody fuel rest).map fun p => (.str (.mk p.1), p.2)
      | '[' :: rest =>
          (match rest.dropWhile isWs with
           | ']' :: r2 => some (.arr [], r2)
           | _ => (parseItems fuel rest).map fun p => (.arr p.1, p.2))
      | '\x7b' :: rest =>
          (match rest.dropWhile isWs with
           | '\x7d' :: r2 => some (.obj [], r2)
           | _ => (parseMembers fuel rest []).map fun p => (.obj p.1, p.2))
      | c :: rest =>
          if c = '-' ∨ c.isDigit then
            (parseNumber (c :: rest)).map fun p => (.num p.1, p.2)
          else none
      | [] => none

/-- Comma-separated array items up to the closing bracket. -/
def parseItems : Nat → List Char → Option (List Json × List Char)
  | 0, _ => none
  | fuel + 1, s => do
      let (v, s1) ← parseValue fuel s
      match s1.dropWhile isWs with
      | ',' :: rest => do
          let (vs, s2) ← parseItems fuel rest
          pure (v :: vs, s2)
      | ']' :: rest => pure ([v], rest)
      | _ => none

/-- Comma-separated `"key": value` members up to the closing brace,
accumulated with Python-dict duplicate semantics (`setKey`). -/
def parseMembers : Nat → List Char → List (String × Json) →
    Option (List (String × Json) × List Char)
  | 0, _, _ => none
  | fuel + 1, s, acc =>
      match s.dropWhile isWs with
      | '"' :: rest => do
          let (k, s1) ← parseStringBody fuel rest
          match s1.dropWhile isWs with
          | ':' :: s2 => do
              let (v, s3) ← parseValue fuel s2
              let acc2 := setKey acc (.mk k) v
              match s3.dropWhile isWs with
              | ',' :: s4 => parseMembers fuel s4 acc2
              | '\x7d' :: s4 => pure (acc2, s4)
              | _ => none
          | _ => none
      | _ => none

end

/-- `json.loads`: parse one value and reject trailing data. -/
def jsonLoads (s : List Char) : Option Json := do
  let (v, rest) ← parseValue (2 * s.length + 2) s
  if (rest.dropWhile isWs).isEmpty then pure v else none

/-- `CallIntent` from `app/models.py`. -/
inductive CallIntent where
  | appointment_booking
  | prescription_refill
  | billing_question
  | urgent_medical_issue
  | general_inquiry
  | insurance_question
  | lab_results
  | referral_request
deriving DecidableEq

/-- `UrgencyLevel` from `app/models.py`. -/
inductive UrgencyLevel where
  | low
  | medium
  | high
deriving DecidableEq

/-- `CallAnalysis` from `app/models.py`: the canonical Result Schema
instance.  `confidence` is the float field, embedded as an exact
rational; its model invariant `0 ≤ confidence ≤ 1` is enforced by
`validateCallAnalysis` below. -/
structure CallAnalysis where
  reasoning : Option String
  intent : CallIntent
  name : Option String
  dob : Option String
  phone : Option String
  summary : String
  urgency : UrgencyLevel
  confidence : ℚ
  speakers : List String
deriving DecidableEq

def intentOfString (s : String) : Option CallIntent :=
  if s = "appointment_booking" then some .appointment_booking
  else if s = "prescription_refill" then some .prescription_refill
  else if s = "billing_question" then some .billing_question
  else if s = "urgent_medical_issue" then some .urgent_medical_issue
  else if s = "general_inquiry" then some .general_inquiry
  else if s = "insurance_question" then some .insurance_question
  else if s = "lab_results" then some .lab_results
  else if s = "referral_request" then some .referral_request
  else none

def stringOfIntent : CallIntent → String
  | .appointment_booking => "appointment_booking"
  | .prescription_refill => "prescription_refill"
  | .billing_question => "billing_question"
  | .urgent_medical_issue => "urgent_medical_issue"
  | .general_inquiry => "general_inquiry"
  | .insurance_question => "insurance_question"
  | .lab_results => "lab_results"
  | .referral_request => "referral_request"

def urgencyOfString (s : String) : Option UrgencyLevel :=
  if s = "low" then some .low
  else if s = "medium" then some .medium
  else if s = "high" then some .high
  else none

def stringOfUrgency : UrgencyLevel → String
  | .low => "low"
  | .medium => "medium"
  | .high => "high"

/-- An `Optional[str] = None` field: missing or `null` gives the `None`
default, a string is taken as is, anything else fails validation. -/
def optStrField (kvs : List (String × Json)) (k : String) :
    Option (Option String) :=
  match lookupKey kvs k with
  | none => some none
  | some .null => some none
  | some (.str s) => some (some s)
  | some _ => none

/-- `CallAnalysis.model_validate` on a parsed JSON value: the input
must be a dict; `intent`, `summary`, `urgency` and `confidence` are
required with their declared types (`confidence` within `[0, 1]`, the
enums by value); the optional string fields default to `None`;
`speakers` defaults to `[]`; unknown keys are ignored (the pydantic
default).  Lax coercions this repository never exercises (such as
numeric strings for floats) are not modelled. -/
def validateCallAnalysis (j : Json) : Option CallAnalysis :=
  match j with
  | .obj kvs => do
      let reasoning ← optStrField kvs "reasoning"
      let intent ←
        match lookupKey kvs "intent" with
        | some (.str s) => intentOfString s
        | _ => none
      let name ← optStrField kvs "name"
      let dob ← optStrField kvs "dob"
      let phone ← optStrField kvs "phone"
      let summary ←
        match lookupKey kvs "summary" with
        | some (.str s) => some s
        | _ => none
      let urgency ←
        match lookupKey kvs "urgency" with
        | some (.str s) => urgencyOfString s
        | _ => none
      let confidence ←
        match lookupKey kvs "confidence" with
        | some (.num q) => if 0 ≤ q ∧ q ≤ 1 then some q else none
        | _ => none
      let speakers ←
        match lookupKey kvs "speakers" with
        | none => some []
        | some (.arr xs) =>
            xs.mapM fun x =>
              match x with
              | .str s => some s
              | _ => none
        | some _ => none
      pure ⟨reasoning, intent, name, dob, phone, summary, urgency,
        confidence, speakers⟩
  | _ => none

/-- `CallAnalysis.model_dump()` (and hence the `/analyze` response body
serialized by FastAPI through `response_model=CallAnalysis`): all
fields in declaration order, except `reasoning`, which is declared with
`exclude=True` and omitted. -/
def model_dump (a : CallAnalysis) : Json :=
  .obj [
    ("intent", .str (stringOfIntent a.intent)),
    ("name", (a.name.map Json.str).getD .null),
    ("dob", (a.dob.map Json.str).getD .null),
    ("phone", (a.phone.map Json.str).getD .null),
    ("summary", .str a.summary),
    ("urgency", .str (stringOfUrgency a.urgency)),
    ("confidence", .num a.confidence),
    ("speakers", .arr (a.speakers.map Json.str))]

/-- `BaseLLMProvider._parse_response` from `app/llm/base.py`: trim the
raw text, extract a fenced block when the fence pattern matches, then
parse as JSON and validate into `CallAnalysis`; `none` is the raised
`json.JSONDecodeError`/`ValidationError`. -/
def parse_response (raw : List Char) : Option CallAnalysis :=
  let cleaned := pyStrip raw
  let cleaned := (searchFence cleaned).getD cleaned
  (jsonLoads cleaned).bind validateCallAnalysis

/-- A clean JSON payload (one of the repository test suite's model
responses). -/
def cleanPayload : List Char :=
  ("\x7b\x22intent\x22: \x22general_inquiry\x22, \x22summary\x22: \x22Clinic hours\x22, \x22urgency\x22: \x22low\x22, \x22confidence\x22: 0.85\x7d").data

/-- The same payload already wrapped in a bare fenced block — itself a
perfectly parseable model response, but one containing fence
delimiters. -/
def fencedPayload : List Char :=
  ("```\n").data ++ cleanPayload ++ ("\n```").data

/-! Admission Controller: `app/security.py`, the key parsing of
`app/config.py`, and the admission phase of `POST /analyze` in
`app/main.py`. -/

/-- Python `s.split(sep)` for a one-character separator: split at every
occurrence, keeping empty pieces (`"a,,b" → ["a", "", "b"]`). -/
def splitEvery (p : Char → Bool) : List Char → List (List Char)
  | [] => [[]]
  | c :: rest =>
      if p c then [] :: splitEvery p rest
      else
        match splitEvery p rest with
        | g :: gs => (c :: g) :: gs
        | [] => [[c]]

/-- `Settings.api_keys_list` from `app/config.py`: the empty
configuration string disables auth; otherwise split on commas, strip
each piece, and drop the pieces that strip to nothing. -/
def api_keys_list (api_keys : List Char) : List (List Char) :=
  if api_keys.isEmpty then []
  else ((splitEvery (fun c => c == ',') api_keys).map pyStrip).filter
    fun k => !k.isEmpty

/-- The error responses raised on the admission path (`HTTPException`
in the source, plus the uncaught `IndexError` described at
`check_rate_limit`). -/
inductive HTTPError where
  | unauthorized
  | forbidden
  | rateLimited (retryAfter : ℤ)
  | indexError
deriving DecidableEq

/-- The HTTP status code each admission error surfaces as (an uncaught
exception becomes a 500 from the framework). -/
def HTTPError.status : HTTPError → ℕ
  | .unauthorized => 401
  | .forbidden => 403
  | .rateLimited _ => 429
  | .indexError => 500

/-- `verify_api_key` from `app/security.py`.  `api_key` is the value
delivered by FastAPI's `APIKeyHeader(..., auto_error=False)`, which
yields `None` both for an absent `X-API-Key` header and for a
present-but-empty one; the guard `if not api_key` in the source
likewise treats an empty string as missing, so the `k.isEmpty` branch
is written out even though it is unreachable through the transport
layer. -/
def verify_api_key (allowed_keys : List (List Char))
    (api_key : Option (List Char)) : Except HTTPError (List Char) :=
  if allowed_keys.isEmpty then .ok ("anonymous").data
  else
    match api_key with
    | none => .error .unauthorized
    | some k =>
        if k.isEmpty then .error .unauthorized
        else if k ∈ allowed_keys then .ok k
        else .error .forbidden

/-- Verdict of one rate-limit check.  `crash` is the `IndexError` the
source raises on `_request_log[api_key][0]` when the pruned list is
empty yet already at the limit — reachable only with
`rate_limit_rpm = 0`. -/
inductive RateDecision where
  | allow
  | reject (retryAfter : ℤ)
  | crash
deriving DecidableEq

/-- Python `int()` on a float: truncation toward zero. -/
def pyTrunc (q : ℚ) : ℤ := if 0 ≤ q then ⌊q⌋ else ⌈q⌉

/-- `window_seconds = 60.0` in `check_rate_limit`. -/
def window_seconds : ℚ := 60

/-- The timestamps of `log` that survive pruning at time `now`:
`[t for t in timestamps if now - t < window_seconds]`. -/
def inWindow (now : ℚ) (log : List ℚ) : List ℚ :=
  log.filter fun t => now - t < window_seconds

/-- `check_rate_limit` from `app/security.py` on one identity's stored
timestamp list: when disabled, admit without touching the list;
otherwise prune, reject with `Retry-After = int(window_seconds - (now -
pruned[0])) + 1` when the pruned count is at or above the ceiling, else
append `now` and admit.  Returns the decision together with the list
stored back into `_request_log`. -/
def check_rate_limit (rate_limit_enabled : Bool) (rate_limit_rpm : ℕ)
    (log : List ℚ) (now : ℚ) : RateDecision × List ℚ :=
  if ¬ rate_limit_enabled then (.allow, log)
  else if rate_limit_rpm ≤ (inWindow now log).length then
    match inWindow now log with
    | [] => (.crash, [])
    | t0 :: rest =>
        (.reject (pyTrunc (window_seconds - (now - t0)) + 1), t0 :: rest)
  else (.allow, inWindow now log ++ [now])

/-- The admission phase of `POST /analyze` in `app/main.py`: FastAPI
resolves `Depends(verify_api_key)` before the handler body runs, and
only on success does the body call `check_rate_limit` on the
authenticated identity.  `table` is the `_request_log` defaultdict
(total with default `[]`); the pruned/appended list is stored back even
when the check raises, as the source assigns it before raising. -/
def analyze_admission (allowed_keys : List (List Char))
    (api_key : Option (List Char)) (rate_limit_enabled : Bool)
    (rate_limit_rpm : ℕ) (table : List Char → List ℚ) (now : ℚ) :
    Except HTTPError (List Char) × (List Char → List ℚ) :=
  match verify_api_key allowed_keys api_key with
  | .error e => (.error e, table)
  | .ok identity =>
      let res := check_rate_limit rate_limit_enabled rate_limit_rpm
        (table identity) now
      let table2 := fun k => if k = identity then res.2 else table k
      match res.1 with
      | .allow => (.ok identity, table2)
      | .reject r => (.error (.rateLimited r), table2)
      | .crash => (.error .indexError, table2)

/-! Input Validator: the `TranscriptRequest` model of `app/models.py`.
pydantic enforces the field constraints `min_length=10` /
`max_length=50_000` first; only when they pass does the
`mode="after"` validator `validate_transcript_content` run, its checks
in source order, raising on the first failure. -/

/-- The distinct rejection reasons of `TranscriptRequest` validation,
field constraints included. -/
inductive ValidationReason where
  | string_too_short
  | string_too_long
  | blank
  | special_chars
  | code_like
  | repetitive
  | too_few_words
deriving DecidableEq

def min_length : ℕ := 10
def max_length : ℕ := 50000

/-- `non_space = [c for c in text if not c.isspace()]`. -/
def nonSpaceOf (text : List Char) : List Char :=
  text.filter fun c => !isWs c

/-- `alpha_ratio = sum(1 for c in non_space if c.isalpha()) /
len(non_space)` (exact rational arithmetic; at the input sizes admitted
by the length bounds, float rounding cannot flip a comparison with
0.4). -/
def alphaRatio (text : List Char) : ℚ :=
  ((nonSpaceOf text).filter Char.isAlpha).length / (nonSpaceOf text).length

/-- `re.split(r"[.!?\n]+", text)` followed by `strip` and dropping the
falsy pieces: splitting at every single separator instead of at maximal
runs yields extra empty pieces that the filter removes, so the result
coincides. -/
def sentencesOf (text : List Char) : List (List Char) :=
  ((splitEvery (fun c => c == '.' || c == '!' || c == '?' || c == '\n')
    text).map pyStrip).filter fun s => !s.isEmpty

/-- `len(set(xs))`: the number of distinct elements. -/
def countDistinct : List (List Char) → ℕ
  | [] => 0
  | x :: xs => (if xs.contains x then 0 else 1) + countDistinct xs

/-- `unique_ratio = len(set(sentences)) / len(sentences)`. -/
def uniqueRatio (text : List Char) : ℚ :=
  (countDistinct (sentencesOf text) : ℚ) / (sentencesOf text).length

/-- `len(text.split())`: whitespace-separated word count. -/
def wordCount (text : List Char) : ℕ :=
  ((splitEvery isWs text).filter fun w => !w.isEmpty).length

/-- `TranscriptRequest` validation from `app/models.py`: the pydantic
length bounds, then the five content checks of
`validate_transcript_content` in order.  The nine code/markup regexes
are the opaque `codeMatchers` argument (each is `re.search` of one
pattern: does it match anywhere in the text). -/
def validateTranscript (codeMatchers : List (List Char → Bool))
    (text : List Char) : Except ValidationReason Unit :=
  if text.length < min_length then .error .string_too_short
  else if max_length < text.length then .error .string_too_long
  else if (pyStrip text).isEmpty then .error .blank
  else if (nonSpaceOf text).isEmpty = false ∧ alphaRatio text < (0.4 : ℚ) then
    .error .special_chars
  else if 2 ≤ codeMatchers.countP (fun m => m text) then .error .code_like
  else if 4 ≤ (sentencesOf text).length ∧ uniqueRatio text < (0.4 : ℚ) then
    .error .repetitive
  else if wordCount text < 3 then .error .too_few_words
  else .ok ()

/-! Theorems. -/

/-- Claim C2: applying the strict-schema transformer to the canonical
CallAnalysis JSON schema succeeds and yields a schema tree in which
every object node lists every one of its property keys in its
`required` list, every object node has `additionalProperties` set to
`false`, no `$ref` key remains anywhere in the tree (including inside
`anyOf` branches used for nullable fields), and the numeric
`minimum`/`maximum` constraints (such as those on the `confidence`
field) are removed. -/
theorem C2_strict_schema_postcondition :
    strictSchemaCheck strictCallAnalysisSchema = true := by rfl

/-- Claim C9: the `reasoning` field never appears in the externally
observable serialization of a `CallAnalysis` — `model_dump` (the shape
FastAPI serializes for `/analyze` through
`response_model=CallAnalysis`) carries no `reasoning` key, and any two
analyses that differ only in their `reasoning` field serialize to
identical output. -/
theorem C9_reasoning_noninterference :
    (∀ (a : CallAnalysis) (r1 r2 : Option String),
      model_dump { a with reasoning := r1 } =
        model_dump { a with reasoning := r2 }) ∧
    (∀ a : CallAnalysis,
      (match model_dump a with
       | .obj kvs => lookupKey kvs "reasoning"
       | _ => none) = none) :=
  ⟨fun _ _ _ => rfl, fun _ => rfl⟩

/-- Claim C10: when the rate-limit check rejects, it records nothing —
the stored window after a rejected check is exactly the pruned window
before it (expired entries removed, nothing appended), so rejected
requests never consume quota or extend the lockout. -/
theorem C10_reject_does_not_record (enabled : Bool) (rpm : ℕ)
    (log : List ℚ) (now : ℚ) (r : ℤ) (stored : List ℚ)
    (h : check_rate_limit enabled rpm log now = (.reject r, stored)) :
    stored = inWindow now log := by
  unfold check_rate_limit at h
  by_cases he : enabled
  · simp only [he, not_true_eq_false, if_neg, Bool.false_eq_true,
      not_false_eq_true, ite_false] at h
    by_cases hc : rpm ≤ (inWindow now log).length
    · rw [if_pos hc] at h
      rcases hw : inWindow now log with _ | ⟨t0, rest⟩ <;> rw [hw] at h
      · simp at h
      · exact (Prod.mk.injEq _ _ _ _ ▸ h).2.symm ▸ rfl
    · rw [if_neg hc] at h
      simp at h
  · simp [he] at h

/-- Witness for C10 at a concrete state: one stored timestamp, ceiling
1, checked inside the window. -/
theorem C10_reject_does_not_record_witness :
    ([(0 : ℚ)] : List ℚ) = inWindow 30 [0] :=
  C10_reject_does_not_record true 1 [0] 30 31 [0]
    (by with_unfolding_all rfl)

/-- Claim C5: on the analyze path authentication is fully evaluated
before the rate-limit check; a request whose credential fails
authentication yields that auth failure (401/403) whatever the rate
state, never the 429 rate-limit failure. -/
theorem C5_auth_before_rate_limit (allowed_keys : List (List Char))
    (api_key : Option (List Char)) (enabled : Bool) (rpm : ℕ)
    (table : List Char → List ℚ) (now : ℚ) (e : HTTPError)
    (hauth : verify_api_key allowed_keys api_key = .error e) :
    (analyze_admission allowed_keys api_key enabled rpm table now).1 =
      .error e ∧
    (e.status = 401 ∨ e.status = 403) ∧ ∀ r : ℤ, e ≠ .rateLimited r := by
  have he : e = .unauthorized ∨ e = .forbidden := by
    unfold verify_api_key at hauth
    by_cases h0 : (allowed_keys).isEmpty
    · rw [if_pos h0] at hauth; exact absurd hauth (by simp)
    · rw [if_neg h0] at hauth
      cases api_key with
      | none => exact Or.inl (Except.error.injEq _ _ ▸ hauth).symm
      | some k =>
          dsimp only at hauth
          by_cases h1 : k.isEmpty
          · rw [if_pos h1] at hauth
            exact Or.inl (Except.error.injEq _ _ ▸ hauth).symm
          · rw [if_neg h1] at hauth
            by_cases h2 : k ∈ allowed_keys
            · rw [if_pos h2] at hauth; exact absurd hauth (by simp)
            · rw [if_neg h2] at hauth
              exact Or.inr (Except.error.injEq _ _ ▸ hauth).symm
  refine ⟨?_, ?_, ?_⟩
  · unfold analyze_admission
    rw [hauth]
  · rcases he with h | h <;> subst h
    · exact Or.inl rfl
    · exact Or.inr rfl
  · intro r
    rcases he with h | h <;> subst h <;> exact fun hc => by cases hc

/-- Witness for C5: configured key `key1`, no token supplied, the
anonymous identity already over an aggressive limit — the outcome is
still the 401, not a 429. -/
theorem C5_auth_before_rate_limit_witness :
    (analyze_admission (api_keys_list ("key1").data) none true 0
      (fun _ => [(0 : ℚ)]) 30).1 = .error .unauthorized ∧
    (HTTPError.unauthorized.status = 401 ∨
      HTTPError.unauthorized.status = 403) ∧
    ∀ r : ℤ, HTTPError.unauthorized ≠ .rateLimited r :=
  C5_auth_before_rate_limit (api_keys_list ("key1").data) none true 0
    (fun _ => [(0 : ℚ)]) 30 .unauthorized (by rfl)

/-- Keys surviving `api_keys_list` are the stripped nonempty pieces, so
the empty string is never a configured key. -/
theorem nil_not_mem_api_keys_list (cfg : List Char) :
    [] ∉ api_keys_list cfg := by
  unfold api_keys_list
  by_cases h : cfg.isEmpty
  · simp [h]
  · rw [if_neg h]
    intro hmem
    have := (List.mem_filter.mp hmem).2
    simp at this

/-- Claim C4: with an empty configured credential list every request is
admitted as the shared identity `anonymous` regardless of any supplied
token; otherwise a missing token is rejected 401 Unauthorized, a
present (nonempty) token outside the list is rejected 403 Forbidden,
and a listed token is returned unchanged as the rate-limiting
identity. -/
theorem C4_authentication (cfg : List Char) :
    (api_keys_list cfg = [] →
      ∀ tok, verify_api_key (api_keys_list cfg) tok =
        .ok ("anonymous").data) ∧
    (api_keys_list cfg ≠ [] →
      (verify_api_key (api_keys_list cfg) none = .error .unauthorized ∧
        HTTPError.unauthorized.status = 401) ∧
      (∀ k, k ≠ [] → k ∉ api_keys_list cfg →
        verify_api_key (api_keys_list cfg) (some k) = .error .forbidden ∧
          HTTPError.forbidden.status = 403) ∧
      (∀ k, k ∈ api_keys_list cfg →
        verify_api_key (api_keys_list cfg) (some k) = .ok k)) := by
  constructor
  · intro h tok
    unfold verify_api_key
    rw [if_pos (List.isEmpty_iff.mpr h)]
  · intro h
    have h0 : (api_keys_list cfg).isEmpty = false := List.isEmpty_eq_false.mpr h
    refine ⟨⟨?_, rfl⟩, fun k hk hmem => ⟨?_, rfl⟩, fun k hmem => ?_⟩
    · unfold verify_api_key
      rw [if_neg (by simp [h0])]
    · unfold verify_api_key
      rw [if_neg (by simp [h0])]
      simp only [List.isEmpty_eq_false.mpr hk, Bool.false_eq_true,
        not_false_eq_true, if_neg, if_false]
      rw [if_neg hmem]
    · have hk : k ≠ [] := fun hnil => nil_not_mem_api_keys_list cfg (hnil ▸ hmem)
      unfold verify_api_key
      rw [if_neg (by simp [h0])]
      simp only [List.isEmpty_eq_false.mpr hk, Bool.false_eq_true,
        not_false_eq_true, if_neg, if_false]
      rw [if_pos hmem]

/-- Witness for C4 on the configuration `key1,key2`: a missing token is
401, a wrong token is 403, a listed token comes back unchanged, and the
empty configuration admits anyone as `anonymous`. -/
theorem C4_authentication_witness :
    verify_api_key (api_keys_list ("key1,key2").data) none =
      .error .unauthorized ∧
    verify_api_key (api_keys_list ("key1,key2").data) (some ("bad").data) =
      .error .forbidden ∧
    verify_api_key (api_keys_list ("key1,key2").data) (some ("key1").data) =
      .ok ("key1").data ∧
    verify_api_key (api_keys_list ("").data) (some ("bad").data) =
      .ok ("anonymous").data :=
  ⟨(((C4_authentication (("key1,key2").data)).2 (by decide)).1).1,
   ((((C4_authentication (("key1,key2").data)).2 (by decide)).2).1
     (("bad").data) (by decide) (by decide)).1,
   (((C4_authentication (("key1,key2").data)).2 (by decide)).2).2
     (("key1").data) (by decide),
   (C4_authentication (("").data)).1 (by decide) (some ("bad").data)⟩

/-- Claim C8 counterexample: the two-space transcript is blank after
trimming but below the minimum length, and validation rejects it with
the length reason of the pydantic field constraint — not the
blank-specific reason — whatever the code matchers. -/
theorem C8_counterexample :
    (fun ms => validateTranscript ms ("  ").data) =
      (fun _ => Except.error ValidationReason.string_too_short) ∧
    (pyStrip ("  ").data).isEmpty = true ∧
    (Except.error ValidationReason.string_too_short :
      Except ValidationReason Unit) ≠ .error .blank :=
  ⟨funext fun _ => rfl, rfl, by simp⟩

/-- Claim C8 (amended): the blank check runs before the other content
checks of the model validator, but the pydantic length bounds run
before the model validator itself; a blank text within the length
bounds is rejected with the blank reason, and any blank text is
rejected with a length reason or the blank reason, never a reason of a
later content check. -/
theorem C8_blank_before_content_checks (ms : List (List Char → Bool))
    (text : List Char) (hblank : (pyStrip text).isEmpty = true) :
    (min_length ≤ text.length → text.length ≤ max_length →
      validateTranscript ms text = .error .blank) ∧
    (validateTranscript ms text = .error .string_too_short ∨
      validateTranscript ms text = .error .string_too_long ∨
      validateTranscript ms text = .error .blank) := by
  unfold validateTranscript
  by_cases h1 : text.length < min_length
  · rw [if_pos h1]
    exact ⟨fun hmin _ => absurd h1 (by omega), Or.inl rfl⟩
  · rw [if_neg h1]
    by_cases h2 : max_length < text.length
    · rw [if_pos h2]
      exact ⟨fun _ hmax => absurd h2 (by omega), Or.inr (Or.inl rfl)⟩
    · rw [if_neg h2, if_pos hblank]
      exact ⟨fun _ _ => rfl, Or.inr (Or.inr rfl)⟩

/-- Witness for the amended C8: a twelve-space transcript is within the
length bounds and draws the blank reason. -/
theorem C8_blank_before_content_checks_witness :
    validateTranscript [] ("            ").data = .error .blank :=
  (C8_blank_before_content_checks [] (("            ").data) rfl).1
    (by decide) (by decide)

/-- A transcript that is not blank after stripping has a non-whitespace
character. -/
theorem nonSpace_ne_nil_of_not_blank (text : List Char)
    (h : (pyStrip text).isEmpty = false) :
    (nonSpaceOf text).isEmpty = false := by
  rw [List.isEmpty_eq_false] at h ⊢
  intro hns
  apply h
  have hall : ∀ c ∈ text, isWs c = true := by
    intro c hc
    by_contra hw
    exact absurd (List.filter_eq_nil_iff.mp hns c hc) (by simpa using hw)
  have hl : lstripL text = [] := List.dropWhile_eq_nil_iff.mpr hall
  unfold pyStrip rstripL
  rw [hl]
  rfl

/-- Claim C6 counterexample: `#$%` passes the blank check and has
alphabetic ratio 0 < 0.4, yet validation rejects it with the
minimum-length reason, not the too-many-special-characters reason. -/
theorem C6_counterexample :
    (fun ms => validateTranscript ms ("#$%").data) =
      (fun _ => Except.error ValidationReason.string_too_short) ∧
    (pyStrip ("#$%").data).isEmpty = false ∧
    alphaRatio ("#$%").data < (0.4 : ℚ) ∧
    (Except.error ValidationReason.string_too_short :
      Except ValidationReason Unit) ≠ .error .special_chars :=
  ⟨funext fun _ => rfl, rfl, by with_unfolding_all decide, by simp⟩

/-- Claim C6 (amended): for a transcript that passes the length bounds
and the blank check, an alphabetic ratio below 0.4 draws the
too-many-special-characters rejection; with ratio at least 0.4 and
every later check passing (code patterns, repetition, word count),
validation accepts. -/
theorem C6_alpha_ratio_threshold (ms : List (List Char → Bool))
    (text : List Char) (hmin : min_length ≤ text.length)
    (hmax : text.length ≤ max_length)
    (hblank : (pyStrip text).isEmpty = false) :
    (alphaRatio text < (0.4 : ℚ) →
      validateTranscript ms text = .error .special_chars) ∧
    ((0.4 : ℚ) ≤ alphaRatio text →
      ms.countP (fun m => m text) < 2 →
      ¬ (4 ≤ (sentencesOf text).length ∧ uniqueRatio text < (0.4 : ℚ)) →
      3 ≤ wordCount text →
      validateTranscript ms text = .ok ()) := by
  have hns := nonSpace_ne_nil_of_not_blank text hblank
  unfold validateTranscript
  rw [if_neg (by omega), if_neg (by omega), if_neg (by simp [hblank])]
  constructor
  · intro hr
    rw [if_pos (show (nonSpaceOf text).isEmpty = false ∧
      alphaRatio text < (0.4 : ℚ) from ⟨hns, hr⟩)]
  · intro hr hcode hrep hwords
    have c4 : ¬ ((nonSpaceOf text).isEmpty = false ∧
        alphaRatio text < (0.4 : ℚ)) :=
      fun hc => absurd hc.2 (not_lt.mpr hr)
    have c5 : ¬ (2 ≤ ms.countP fun m => m text) := not_le.mpr hcode
    have c7 : ¬ (wordCount text < 3) := not_lt.mpr hwords
    rw [if_neg c4, if_neg c5, if_neg hrep, if_neg c7]

/-- Witness for the amended C6 on a genuine transcript (the repository
test suite's accepted example) with an empty matcher set. -/
theorem C6_alpha_ratio_threshold_witness :
    validateTranscript []
      ("Hi, this is John. I need to schedule an appointment.").data =
      .ok () :=
  (C6_alpha_ratio_threshold []
      (("Hi, this is John. I need to schedule an appointment.").data)
      (by decide) (by decide) rfl).2
    (by with_unfolding_all decide) (by decide)
    (by with_unfolding_all decide) (by decide)

/-- Claim C7: for a transcript reaching the code-pattern check, two or
more matching patterns draw the code-content rejection; with at most
one matching pattern this check never causes the rejection, whatever
the rest of the input looks like. -/
theorem C7_code_pattern_threshold (ms : List (List Char → Bool))
    (text : List Char) :
    (min_length ≤ text.length → text.length ≤ max_length →
      (pyStrip text).isEmpty = false → (0.4 : ℚ) ≤ alphaRatio text →
      2 ≤ ms.countP (fun m => m text) →
      validateTranscript ms text = .error .code_like) ∧
    (ms.countP (fun m => m text) ≤ 1 →
      validateTranscript ms text ≠ .error .code_like) := by
  constructor
  · intro h1 h2 h3 h4 h5
    unfold validateTranscript
    have c1 : ¬ (text.length < min_length) := not_lt.mpr h1
    have c2 : ¬ (max_length < text.length) := not_lt.mpr h2
    have c3 : ¬ ((pyStrip text).isEmpty = true) := by simp [h3]
    have c4 : ¬ ((nonSpaceOf text).isEmpty = false ∧
        alphaRatio text < (0.4 : ℚ)) :=
      fun hc => absurd hc.2 (not_lt.mpr h4)
    rw [if_neg c1, if_neg c2, if_neg c3, if_neg c4, if_pos h5]
  · intro h5
    unfold validateTranscript
    split_ifs with a b c d e f g
    · simp
    · simp
    · simp
    · simp
    · exact absurd (le_trans e h5) (by decide)
    · simp
    · simp
    · simp

/-- Witness for C7: two stand-in matchers (substring tests for `def `
and `return`) both fire on a code-shaped input that passes the earlier
statistical checks, and the result is the code-content rejection. -/
theorem C7_code_pattern_threshold_witness :
    validateTranscript
      [fun t => containsSeq (("def ").data) t,
       fun t => containsSeq (("return").data) t]
      ("def total(): return sum of items in the cart today").data =
      .error .code_like :=
  (C7_code_pattern_threshold
      [fun t => containsSeq (("def ").data) t,
       fun t => containsSeq (("return").data) t]
      (("def total(): return sum of items in the cart today").data)).1
    (by decide) (by decide) rfl (by with_unfolding_all decide) (by decide)

/-- Claim C1 counterexample: ceiling 1, one stored timestamp at 0,
checked at time 30.  The time until the oldest surviving timestamp
exits the window is exactly 30 seconds, whose round-up is 30, but the
code computes `int(60 - 30) + 1 = 31`. -/
theorem C1_counterexample :
    check_rate_limit true 1 [0] 30 = (.reject 31, [0]) ∧
    ⌈((0 : ℚ) + window_seconds - 30 : ℚ)⌉ = 30 ∧ (31 : ℤ) ≠ 30 :=
  ⟨by with_unfolding_all rfl, by with_unfolding_all decide, by decide⟩

/-- Claim C1 (amended): with rate limiting enabled and a ceiling
`N ≥ 1`, a check finding at least `N` stored timestamps within the last
60 seconds rejects with a 429 whose retry-after equals one plus the
truncated time until the oldest surviving timestamp exits the window —
the smallest whole number of seconds strictly greater than that time,
hence a positive integer (this agrees with rounding up except when the
remaining time is an exact whole number of seconds, where it is one
more); and a check made once the oldest of the `N` stored timestamps is
more than 60 seconds old is admitted and appends the current timestamp
to the pruned window. -/
theorem C1_sliding_window (N : ℕ) (log : List ℚ) (hN : 0 < N) :
    (∀ now : ℚ, N ≤ (inWindow now log).length →
      ∃ t0 rest, inWindow now log = t0 :: rest ∧
        check_rate_limit true N log now =
          (.reject (pyTrunc (window_seconds - (now - t0)) + 1),
            t0 :: rest) ∧
        window_seconds - (now - t0) <
          ((pyTrunc (window_seconds - (now - t0)) + 1 : ℤ) : ℚ) ∧
        ((pyTrunc (window_seconds - (now - t0)) + 1 : ℤ) : ℚ) ≤
          window_seconds - (now - t0) + 1 ∧
        0 < pyTrunc (window_seconds - (now - t0)) + 1) ∧
    (∀ (now2 t0 : ℚ), log.length = N → t0 ∈ log →
      (∀ t ∈ log, t0 ≤ t) → window_seconds < now2 - t0 →
      check_rate_limit true N log now2 =
        (.allow, inWindow now2 log ++ [now2])) := by
  constructor
  · intro now hcount
    rcases hw : inWindow now log with _ | ⟨t0, rest⟩
    · rw [hw] at hcount
      simp at hcount
      omega
    · have ht0 : now - t0 < window_seconds := by
        have hmem : t0 ∈ inWindow now log := hw ▸ List.mem_cons_self t0 rest
        have := List.mem_filter.mp hmem
        simpa using this.2
      have hx : 0 < window_seconds - (now - t0) := by linarith
      have htr : pyTrunc (window_seconds - (now - t0)) =
          ⌊window_seconds - (now - t0)⌋ := if_pos hx.le
      refine ⟨t0, rest, rfl, ?_, ?_, ?_, ?_⟩
      · unfold check_rate_limit
        rw [if_neg (by simp), if_pos (hw ▸ hcount), hw]
      · rw [htr]
        push_cast
        exact Int.lt_floor_add_one _
      · rw [htr]
        push_cast
        have := Int.floor_le (window_seconds - (now - t0))
        linarith
      · rw [htr]
        have : (0 : ℤ) ≤ ⌊window_seconds - (now - t0)⌋ :=
          Int.floor_nonneg.mpr hx.le
        omega
  · intro now2 t0 hlen hmem hmin hage
    have hdrop : (inWindow now2 log).length < N := by
      rw [← hlen]
      exact List.length_filter_lt_length_iff_exists.mpr
        ⟨t0, hmem, by simpa using not_lt.mpr hage.le⟩
    unfold check_rate_limit
    rw [if_neg (by simp), if_neg (not_le.mpr hdrop)]

/-- Witness for the amended C1: ceiling 2, timestamps `[0, 0]`; the
check at time 30 rejects with retry-after `int(60 - 30) + 1`, and the
check at time 61 (once the oldest timestamp is more than 60 seconds
old) admits and appends. -/
theorem C1_sliding_window_witness :
    (∃ t0 rest, inWindow 30 [(0 : ℚ), 0] = t0 :: rest ∧
      check_rate_limit true 2 [0, 0] 30 =
        (.reject (pyTrunc (window_seconds - (30 - t0)) + 1),
          t0 :: rest) ∧
      window_seconds - (30 - t0) <
        ((pyTrunc (window_seconds - (30 - t0)) + 1 : ℤ) : ℚ) ∧
      ((pyTrunc (window_seconds - (30 - t0)) + 1 : ℤ) : ℚ) ≤
        window_seconds - (30 - t0) + 1 ∧
      0 < pyTrunc (window_seconds - (30 - t0)) + 1) ∧
    check_rate_limit true 2 [(0 : ℚ), 0] 61 =
      (.allow, inWindow 61 [0, 0] ++ [61]) :=
  ⟨(C1_sliding_window 2 [0, 0] (by decide)).1 30
      (by with_unfolding_all decide),
   (C1_sliding_window 2 [0, 0] (by decide)).2 61 0 rfl
      (List.mem_cons_self 0 [0]) (by simp)
      (by with_unfolding_all decide)⟩

/-! Support lemmas for the fence-extraction model (claim C3). -/

/-- A fence-free text does not begin with a fence. -/
theorem swf_of_hasFence (s : List Char) (h : hasFence s = false) :
    startsWithFence s = false := by
  cases s with
  | nil => rfl
  | cons c rest =>
      unfold hasFence at h
      exact (Bool.or_eq_false_iff.mp h).1

/-- The tail of a fence-free text is fence-free. -/
theorem hasFence_tail (c : Char) (rest : List Char)
    (h : hasFence (c :: rest) = false) : hasFence rest = false := by
  unfold hasFence at h
  exact (Bool.or_eq_false_iff.mp h).2

/-- Appending `"\n```"` to a text that does not begin with a fence
yields a text that does not begin with a fence: the inserted newline
cannot be part of a fence delimiter. -/
theorem swf_append_close (xs : List Char)
    (h : startsWithFence xs = false) :
    startsWithFence (xs ++ ('\n' :: '\x60' :: '\x60' :: '\x60' :: [])) =
      false := by
  match xs with
  | [] => rfl
  | [a] => simp [startsWithFence]
  | [a, b] => simp [startsWithFence]
  | a :: b :: c :: rest =>
      simpa [startsWithFence] using h

/-- Dropping a prefix (`dropWhile`) of a fence-free text keeps it
fence-free. -/
theorem hasFence_dropWhile (p : Char → Bool) (s : List Char)
    (h : hasFence s = false) : hasFence (s.dropWhile p) = false := by
  induction s with
  | nil => exact h
  | cons c rest ih =>
      rw [List.dropWhile_cons]
      by_cases hp : p c
      · simp only [hp, if_true]
        exact ih (hasFence_tail c rest h)
      · simp only [hp, if_false]
        exact h

/-- A text beginning with a fence still does so after an append. -/
theorem swf_append_right (xs ys : List Char)
    (h : startsWithFence xs = true) :
    startsWithFence (xs ++ ys) = true := by
  match xs with
  | [] => exact absurd h (by simp [startsWithFence])
  | [a] => exact absurd h (by simp [startsWithFence])
  | [a, b] => exact absurd h (by simp [startsWithFence])
  | a :: b :: c :: rest => simpa [startsWithFence] using h

/-- A prefix (in the append sense) of a fence-free text is
fence-free. -/
theorem hasFence_append_left (xs ys : List Char)
    (h : hasFence (xs ++ ys) = false) : hasFence xs = false := by
  induction xs with
  | nil => rfl
  | cons c rest ih =>
      unfold hasFence at h ⊢
      rcases Bool.or_eq_false_iff.mp h with ⟨h1, h2⟩
      refine Bool.or_eq_false_iff.mpr ⟨?_, ih h2⟩
      cases hs : startsWithFence (c :: rest) with
      | false => rfl
      | true =>
          have h3 := swf_append_right (c :: rest) ys hs
          simp only [List.cons_append] at h3
          exact absurd h3 (by simp only [Bool.not_eq_true]; exact h1)

/-- A text is its right-strip followed by its trailing whitespace. -/
theorem rstripL_append_tail (s : List Char) :
    rstripL s ++ (s.reverse.takeWhile isWs).reverse = s := by
  unfold rstripL
  rw [← List.reverse_append, List.takeWhile_append_dropWhile,
    List.reverse_reverse]

/-- Stripping keeps a fence-free text fence-free. -/
theorem hasFence_pyStrip (s : List Char) (h : hasFence s = false) :
    hasFence (pyStrip s) = false := by
  unfold pyStrip
  have h1 : hasFence (lstripL s) = false := hasFence_dropWhile isWs s h
  exact hasFence_append_left _ _
    (by rw [rstripL_append_tail (lstripL s)]; exact h1)

/-- All-whitespace texts right-strip to nothing. -/
theorem rstripL_eq_nil (s : List Char) (h : ∀ c ∈ s, isWs c = true) :
    rstripL s = [] := by
  unfold rstripL
  rw [List.dropWhile_eq_nil_iff.mpr fun c hc =>
    h c (List.mem_reverse.mp hc)]
  rfl

/-- The left strip is empty exactly when the right strip is (both mean
the text is all whitespace). -/
theorem lstrip_nil_iff_rstrip_nil (s : List Char) :
    lstripL s = [] ↔ rstripL s = [] := by
  unfold lstripL rstripL
  rw [List.dropWhile_eq_nil_iff, List.reverse_eq_nil_iff,
    List.dropWhile_eq_nil_iff]
  constructor
  · intro h c hc
    exact h c (List.mem_reverse.mp hc)
  · intro h c hc
    exact h c (List.mem_reverse.mpr hc)

/-- Right-stripping past a non-whitespace head keeps the head. -/
theorem rstripL_cons_nonws (q : Char) (s : List Char)
    (h : isWs q = false) : rstripL (q :: s) = q :: rstripL s := by
  unfold rstripL
  rw [show (q :: s).reverse = s.reverse ++ [q] by simp,
    List.dropWhile_append]
  by_cases he : (s.reverse.dropWhile isWs).isEmpty
  · rw [if_pos he]
    rw [List.isEmpty_iff.mp he]
    simp [List.dropWhile_cons, h]
  · rw [if_neg he]
    simp

/-- Right-stripping past a whitespace head keeps the head as long as
something non-whitespace survives further right. -/
theorem rstripL_cons_ws (q : Char) (s : List Char)
    (h : rstripL s ≠ []) : rstripL (q :: s) = q :: rstripL s := by
  unfold rstripL at h ⊢
  have he : (s.reverse.dropWhile isWs).isEmpty = false := by
    rw [List.isEmpty_eq_false]
    intro hc
    exact h (by rw [hc]; rfl)
  rw [show (q :: s).reverse = s.reverse ++ [q] by simp,
    List.dropWhile_append, if_neg (by simp [he])]
  simp

/-- Core lemma on the fence regex: scanning a fence-free group body
followed by `"\n```"`, the lazy group closes exactly at the appended
fence and captures the body right-stripped (the trailing whitespace
goes to the final greedy `\s*`). -/
theorem lazyClose_close (Q : List Char) (h : hasFence Q = false) :
    lazyClose (Q ++ ('\n' :: '\x60' :: '\x60' :: '\x60' :: [])) =
      some (rstripL Q) := by
  induction Q with
  | nil => rfl
  | cons q Q2 ih =>
      have hswf : startsWithFence (q :: Q2) = false := swf_of_hasFence _ h
      have hQ2 : hasFence Q2 = false := hasFence_tail _ _ h
      rw [List.cons_append]
      unfold lazyClose
      by_cases hq : isWs q = true
      · rw [List.dropWhile_cons, if_pos hq, List.dropWhile_append]
        by_cases hall : (Q2.dropWhile isWs).isEmpty
        · rw [if_pos hall, if_pos (by rfl)]
          have hw : ∀ c ∈ q :: Q2, isWs c = true := by
            intro c hc
            rcases List.mem_cons.mp hc with hc | hc
            · exact hc ▸ hq
            · have := List.dropWhile_eq_nil_iff.mp (List.isEmpty_iff.mp hall)
              exact this c hc
          rw [rstripL_eq_nil _ hw]
        · rw [if_neg hall]
          have h5 : startsWithFence (Q2.dropWhile isWs) = false :=
            swf_of_hasFence _ (hasFence_dropWhile isWs Q2 hQ2)
          rw [if_neg (by rw [swf_append_close _ h5]; simp), ih hQ2]
          have hr : rstripL Q2 ≠ [] := by
            intro hc
            apply hall
            rw [List.isEmpty_iff]
            exact (lstrip_nil_iff_rstrip_nil Q2).mpr hc
          rw [rstripL_cons_ws q Q2 hr]
          rfl
      · rw [List.dropWhile_cons, if_neg hq]
        have h6 := swf_append_close _ hswf
        rw [List.cons_append] at h6
        rw [if_neg (by rw [h6]; simp), ih hQ2,
          rstripL_cons_nonws q Q2 (by simpa using hq)]
        rfl

/-- The body step of a wrapped payload: after the opening fence, the
tag and the newline, the greedy `\s*` plus lazy group recover exactly
the stripped payload. -/
theorem lazyClose_dropWhile_wrap (P : List Char) (h : hasFence P = false) :
    lazyClose ((P ++ ('\n' :: '\x60' :: '\x60' :: '\x60' :: [])).dropWhile
      isWs) = some (pyStrip P) := by
  rw [List.dropWhile_append]
  by_cases hall : (P.dropWhile isWs).isEmpty
  · rw [if_pos hall]
    have hp : pyStrip P = [] := by
      unfold pyStrip lstripL
      rw [List.isEmpty_iff.mp hall]
      rfl
    rw [hp]
    rfl
  · rw [if_neg hall,
      lazyClose_close (P.dropWhile isWs) (hasFence_dropWhile isWs P h)]
    rfl

/-- The fence regex finds no match in a fence-free text. -/
theorem searchFence_none (s : List Char) (h : hasFence s = false) :
    searchFence s = none := by
  induction s with
  | nil => rfl
  | cons c rest ih =>
      unfold searchFence
      rw [if_neg (by rw [swf_of_hasFence _ h]; simp),
        ih (hasFence_tail _ _ h)]
      rfl

/-- A text opening with a non-whitespace character and closing with a
backtick strips to itself. -/
theorem pyStrip_fixed (a : Char) (mid : List Char) (ha : isWs a = false) :
    pyStrip (a :: (mid ++ ['\x60'])) = a :: (mid ++ ['\x60']) := by
  unfold pyStrip lstripL rstripL
  rw [List.dropWhile_cons, if_neg (by rw [ha]; simp)]
  rw [show (a :: (mid ++ ['\x60'])).reverse =
    '\x60' :: (mid.reverse ++ [a]) by simp]
  rw [List.dropWhile_cons, if_neg (by simp [isWs])]
  simp

/-- `re.search` on a tagged wrapped payload `"```json\n" + P + "\n```"`
with fence-free `P` extracts the stripped payload. -/
theorem searchFence_wrapTag (P : List Char) (h : hasFence P = false) :
    searchFence (("```json\n").data ++ P ++ ("\n```").data) =
      some (pyStrip P) := by
  show searchFence ('\x60' :: '\x60' :: '\x60' :: 'j' :: 's' :: 'o' ::
    'n' :: '\n' :: (P ++ ('\n' :: '\x60' :: '\x60' :: '\x60' :: []))) = _
  have hb : tryBody ('\n' ::
      (P ++ ('\n' :: '\x60' :: '\x60' :: '\x60' :: []))) =
      some (pyStrip P) := by
    unfold tryBody
    rw [List.dropWhile_cons, if_pos (by rfl)]
    exact lazyClose_dropWhile_wrap P h
  unfold searchFence
  rw [if_pos (by rfl)]
  unfold tryTag
  rw [if_pos (by rfl)]
  show ((tryBody ('\n' ::
    (P ++ ('\n' :: '\x60' :: '\x60' :: '\x60' :: [])))).orElse _).orElse
      _ = _
  rw [hb]
  rfl

/-- `re.search` on a bare wrapped payload `"```\n" + P + "\n```"` with
fence-free `P` extracts the stripped payload identically. -/
theorem searchFence_wrapBare (P : List Char) (h : hasFence P = false) :
    searchFence (("```\n").data ++ P ++ ("\n```").data) =
      some (pyStrip P) := by
  show searchFence ('\x60' :: '\x60' :: '\x60' ::
    '\n' :: (P ++ ('\n' :: '\x60' :: '\x60' :: '\x60' :: []))) = _
  have hb : tryBody ('\n' ::
      (P ++ ('\n' :: '\x60' :: '\x60' :: '\x60' :: []))) =
      some (pyStrip P) := by
    unfold tryBody
    rw [List.dropWhile_cons, if_pos (by rfl)]
    exact lazyClose_dropWhile_wrap P h
  unfold searchFence
  rw [if_pos (by rfl)]
  unfold tryTag
  rw [if_neg (by simp [jsonTag])]
  show ((Option.orElse none fun _ => tryBody ('\n' ::
    (P ++ ('\n' :: '\x60' :: '\x60' :: '\x60' :: [])))).orElse _) = _
  rw [hb]
  rfl

/-- Zeta-reduced reading of `parse_response`. -/
theorem parse_response_eq (raw : List Char) :
    parse_response raw =
      (jsonLoads ((searchFence (pyStrip raw)).getD (pyStrip raw))).bind
        validateCallAnalysis := rfl

/-- Claim C3 counterexample: the payload `fencedPayload` — itself a
fenced block holding valid CallAnalysis JSON — parses successfully when
given directly, but fails when wrapped in `"```json\n...\n```"` or
`"```\n...\n```"`: the lazy fence regex closes on the payload's own
opening fence and extracts the empty string.  So parsing `P`,
`"```json\nP\n```"` and `"```\nP\n```"` does not produce the same
result for every payload `P`. -/
theorem C3_counterexample :
    (parse_response fencedPayload).isSome = true ∧
    parse_response (("```json\n").data ++ fencedPayload ++
      ("\n```").data) = none ∧
    parse_response (("```\n").data ++ fencedPayload ++
      ("\n```").data) = none :=
  ⟨by with_unfolding_all rfl, by with_unfolding_all rfl,
    by with_unfolding_all rfl⟩

/-- Claim C3 (amended): the parser is idempotent on already-clean
input — raw text in which the fence pattern finds no match is parsed
as its whitespace-trimmed self — and for every payload `P` containing
no fence delimiter, parsing `P`, `"```json\nP\n```"` and
`"```\nP\n```"` produces the same result: the same `CallAnalysis` on
success, failure on failure. -/
theorem C3_fenced_block_recovery :
    (∀ raw : List Char, searchFence (pyStrip raw) = none →
      parse_response raw =
        (jsonLoads (pyStrip raw)).bind validateCallAnalysis) ∧
    (∀ P : List Char, hasFence P = false →
      parse_response (("```json\n").data ++ P ++ ("\n```").data) =
        parse_response P ∧
      parse_response (("```\n").data ++ P ++ ("\n```").data) =
        parse_response P) := by
  constructor
  · intro raw h
    rw [parse_response_eq, h]
    rfl
  · intro P h
    have hP : parse_response P =
        (jsonLoads (pyStrip P)).bind validateCallAnalysis := by
      rw [parse_response_eq, searchFence_none _ (hasFence_pyStrip P h)]
      rfl
    constructor
    · have hps : pyStrip (("```json\n").data ++ P ++ ("\n```").data) =
          ("```json\n").data ++ P ++ ("\n```").data := by
        have h2 := pyStrip_fixed '\x60'
          ('\x60' :: '\x60' :: 'j' :: 's' :: 'o' :: 'n' :: '\n' ::
            (P ++ ['\n', '\x60', '\x60'])) (by rfl)
        simpa [List.append_assoc] using h2
      rw [parse_response_eq, hps, searchFence_wrapTag P h, hP]
      rfl
    · have hps : pyStrip (("```\n").data ++ P ++ ("\n```").data) =
          ("```\n").data ++ P ++ ("\n```").data := by
        have h2 := pyStrip_fixed '\x60'
          ('\x60' :: '\x60' :: '\n' ::
            (P ++ ['\n', '\x60', '\x60'])) (by rfl)
        simpa [List.append_assoc] using h2
      rw [parse_response_eq, hps, searchFence_wrapBare P h, hP]
      rfl

/-- Witness for the amended C3 at the clean payload: parsed as-is when
given directly, and identically when wrapped with or without a
language tag. -/
theorem C3_fenced_block_recovery_witness :
    parse_response cleanPayload =
      (jsonLoads (pyStrip cleanPayload)).bind validateCallAnalysis ∧
    parse_response (("```json\n").data ++ cleanPayload ++
      ("\n```").data) = parse_response cleanPayload ∧
    parse_response (("```\n").data ++ cleanPayload ++
      ("\n```").data) = parse_response cleanPayload :=
  ⟨C3_fenced_block_recovery.1 cleanPayload (by rfl),
   (C3_fenced_block_recovery.2 cleanPayload (by rfl)).1,
   (C3_fenced_block_recovery.2 cleanPayload (by rfl)).2⟩

end ClinicAssistant
